import Mathlib

/-!
Shallow embedding of the `genutils` composition-and-dispatch framework
(builder, registrar, command dispatcher, help renderer, and small string
utilities) together with proofs about the claims of the specification.

Modelling conventions:
* Go maps are association lists `List (String × α)`; `m[key] = value`
  is `mapInsert`.  Go map iteration order is unspecified; the model fixes
  the list order, and every property proved below is order-robust.
* Go maps are reference values: wholesale assignment shares the map.
  The builder is therefore modelled with an explicit store of map cells
  (`Store`), a builder being a function `Store → Store × CmdRef`.
* Panics (`panic(err)` in `register`, index-out-of-range in `Title`)
  are modelled as `Except.error` / `Option.none`.
* External collaborators (the annotation engine's registry resolution,
  `help.ByCategory`, the generator runtime, the pretty printers) are
  opaque: their one-invocation results are parameters, and rendering
  calls are recorded as tagged `Rendered` values instead of text.
-/

set_option autoImplicit false

namespace Genutils

/-- Generator plugin payload.  The engine-side behaviour of a generator is
opaque to this layer; `id` distinguishes distinct plugin values and `help`
models the optional `genall.HasHelp` capability together with the
`Help() != nil` check (a `none` stands for either a missing capability or
a `nil` help object, which the registrar treats identically). -/
structure Generator where
  id : Nat
  help : Option String
  deriving DecidableEq, Repr

/-- Output-rule plugin payload, modelled like `Generator`. -/
structure OutputRule where
  id : Nat
  help : Option String
  deriving DecidableEq, Repr

/-- The `genall.OutputToDirectory("")` default rule (opaque payload). -/
def OutputToDirectory : OutputRule := { id := 0, help := none }

/-- The `genall.OutputToStdout` default rule (opaque payload). -/
def OutputToStdout : OutputRule := { id := 1, help := none }

/-- Contents of a `map[string]genall.Generator`. -/
abbrev GenMap := List (String × Generator)

/-- Contents of a `map[string]genall.OutputRule`. -/
abbrev RuleMap := List (String × OutputRule)

/-- Go map assignment `m[key] = v`: replace the entry for `key` if present,
otherwise add one. -/
def mapInsert {α : Type} : List (String × α) → String → α → List (String × α)
  | [], key, v => [(key, v)]
  | p :: rest, key, v =>
    if p.1 = key then (key, v) :: rest else p :: mapInsert rest key v

/-- Go errors reachable in this package: `errors.New` values and the
`noUsageError` wrapper (`struct{ error }`), whose zero value
`noUsageError{}` (a `nil` inner error) is `noUsageErrorNil`.  Distinct
`errors.New` allocations with the same message compare unequal in Go;
the dispatcher only ever compares an error against `noUsageError{}`
(a different constructor in every reachable case), so structural
equality is faithful there. -/
inductive GoErr where
  | errorString (msg : String)
  | noUsageError (inner : GoErr)
  | noUsageErrorNil
  deriving DecidableEq, Repr

/-- Go `errors.Is(err, target)` for the error types of this package:
neither `errorString` nor `noUsageError` implements `Is(error) bool` or
`Unwrap() error` (the embedded `error` interface only promotes
`Error() string`), so the `errors.Is` loop terminates after its first
comparability-equality test. -/
def errorsIs (err target : GoErr) : Bool := decide (err = target)

/-- The `markers.Registry`: the names of the registered definitions and
the help objects attached to them (keyed by definition name). -/
structure Registry where
  names : List String
  helps : List (String × String)
  deriving DecidableEq, Repr

/-- The fresh `&markers.Registry{}`. -/
def Registry.empty : Registry := { names := [], helps := [] }

/-- `markers.Registry.Register`: fails if a definition with the same name
was already registered, otherwise records the definition.
(`markers.Must(markers.MakeDefinition ...)` cannot fail for the schemas
this package passes, so definition creation is not a failure point.) -/
def Registry.Register (r : Registry) (name : String) : Except GoErr Registry :=
  if name ∈ r.names then
    .error (.errorString ("marker " ++ name ++ " already registered"))
  else
    .ok { r with names := r.names ++ [name] }

/-- `markers.Registry.AddHelp`. -/
def Registry.AddHelp (r : Registry) (defName : String) (h : String) : Registry :=
  { r with helps := r.helps ++ [(defName, h)] }

/-- The registrar's capability check: `if helpGiver, hasHelp := x.(genall.HasHelp);
hasHelp { if h := helpGiver.Help(); h != nil { reg.AddHelp(def, h) } }`. -/
def addHelpIfPresent (r : Registry) (defName : String) : Option String → Registry
  | some h => r.AddHelp defName h
  | none => r

/-- Pure view of a frozen `Cmd` configuration (Go struct `Cmd`), with its
map references dereferenced to their contents. -/
structure Cmd where
  name : String
  description : String
  helper : String
  generators : GenMap
  markerRegistry : Registry
  outputRules : RuleMap
  deriving DecidableEq, Repr

/-- Inner loop of `register`: the per-generator output-rule markers
`"output:<generator>:<rule>"`, in rule order, aborting (`panic`) on a
duplicate name. -/
def registerGenRuleMarkers (genName : String) : RuleMap → Registry → Except GoErr Registry
  | [], reg => .ok reg
  | (ruleName, rule) :: rest, reg =>
    match reg.Register ("output:" ++ genName ++ ":" ++ ruleName) with
    | .error e => .error e
    | .ok reg' =>
      registerGenRuleMarkers genName rest
        (addHelpIfPresent reg' ("output:" ++ genName ++ ":" ++ ruleName) rule.help)

/-- First loop of `register`: one marker named exactly as the generator
key, then that generator's output-rule markers. -/
def registerGenerators (rules : RuleMap) : GenMap → Registry → Except GoErr Registry
  | [], reg => .ok reg
  | (genName, generator) :: rest, reg =>
    match reg.Register genName with
    | .error e => .error e
    | .ok reg' =>
      match registerGenRuleMarkers genName rules (addHelpIfPresent reg' genName generator.help) with
      | .error e => .error e
      | .ok reg'' => registerGenerators rules rest reg''

/-- Second loop of `register`: the "default output" markers
`"output:<rule>"`. -/
def registerDefaultOutputMarkers : RuleMap → Registry → Except GoErr Registry
  | [], reg => .ok reg
  | (ruleName, rule) :: rest, reg =>
    match reg.Register ("output:" ++ ruleName) with
    | .error e => .error e
    | .ok reg' =>
      registerDefaultOutputMarkers rest
        (addHelpIfPresent reg' ("output:" ++ ruleName) rule.help)

/-- `genall.RegisterOptionsMarkers`: the engine's own built-in option
markers, opaque to this package; it registers each of its marker names
through the same duplicate-checking `Register`. -/
def registerBuiltins : List String → Registry → Except GoErr Registry
  | [], reg => .ok reg
  | n :: rest, reg =>
    match reg.Register n with
    | .error e => .error e
    | .ok reg' => registerBuiltins rest reg'

/-- The registrar `register(g Cmd)`: generator markers, then default
output markers, then the engine's built-in option markers
(`optionsMarkers`).  A `panic` is an `Except.error`. -/
def register (g : Cmd) (optionsMarkers : List String) : Except GoErr Registry :=
  match registerGenerators g.outputRules g.generators g.markerRegistry with
  | .error e => .error e
  | .ok reg =>
    match registerDefaultOutputMarkers g.outputRules reg with
    | .error e => .error e
    | .ok reg' => registerBuiltins optionsMarkers reg'

/-- The marker names derived from the generators: for each generator in
order, its own name followed by its per-rule output markers. -/
def generatorMarkerNames (rules : RuleMap) : GenMap → List String
  | [] => []
  | (genName, _) :: rest =>
    (genName :: rules.map (fun q => "output:" ++ genName ++ ":" ++ q.1))
      ++ generatorMarkerNames rules rest

/-- The names of the default-output markers. -/
def defaultOutputMarkerNames (rules : RuleMap) : List String :=
  rules.map (fun q => "output:" ++ q.1)

/-- `Title` (`[]rune` view): uppercase the first rune, keep the rest.
`r[0]` on an empty rune slice is an index-out-of-range panic, modelled
as `none`.  Go's `unicode.ToUpper` is the parameter `toUpper`. -/
def Title (toUpper : Char → Char) (s : List Char) : Option (List Char) :=
  match s.get? 0 with
  | none => none
  | some c => some ([toUpper c] ++ s.drop 1)

/-- `GeneratedFilename`. -/
def GeneratedFilename (prefixPart name : String) : String :=
  "zz_generated." ++ prefixPart ++ "." ++ name ++ ".go"

/-- The `iota` help-level constants: `summaryHelp`. -/
def summaryHelp : Nat := 1

/-- The `iota` help-level constants: `detailedHelp`. -/
def detailedHelp : Nat := 2

/-- The `iota` help-level constants: `fullHelp`. -/
def fullHelp : Nat := 3

/-- The `iota` help-level constants: `jsonHelp`. -/
def jsonHelp : Nat := 4

/-- One entry of the `help.ByCategory` result: a category name and its
marker help entries (the entries themselves are opaque payloads). -/
structure HelpCategory where
  Category : String
  Markers : List String
  deriving DecidableEq, Repr

/-- One write performed by the dispatcher or the help renderer.  The
pretty printers (`prettyhelp.MarkersDetails` / `MarkersSummary`), the
json encoder, the version printer, cobra's usage dump, the
`"\n\nOptions\n\n"` header and the post-failure hint line are external
text producers; the model records which one ran and with which
arguments. -/
inductive Rendered where
  | versionText
  | usageText
  | optionsHeader
  | jsonDoc (info : List HelpCategory)
  | detailBlock (fullDetail : Bool) (category : String) (markers : List String)
  | summaryBlock (category : String) (markers : List String)
  | hintLine
  deriving DecidableEq, Repr

/-- What a help-rendering call wrote to each stream: `main` is the
primary output stream (`mainOut` / `cmd.OutOrStdout()`), `err` the
diagnostic stream (`errOut` / `cmd.OutOrStderr()`). -/
structure HelpOut where
  main : List Rendered
  err : List Rendered
  deriving DecidableEq, Repr

/-- `helpForLevels(mainOut, errOut, whichLevel, reg, sorter)`.  The
source first computes `helpInfo := help.ByCategory(reg, sorter)` (an
external call) and then switches on `whichLevel`; the model takes
`helpInfo` directly.  The per-category loops `continue` on an empty
category name, i.e. they render exactly the categories with a non-empty
name; the switch has no default case, so any other level writes
nothing.  I/O errors of the underlying writers are not modelled. -/
def helpForLevels (whichLevel : Nat) (helpInfo : List HelpCategory) : HelpOut :=
  if whichLevel = jsonHelp then
    { main := [.jsonDoc helpInfo], err := [] }
  else if whichLevel = detailedHelp ∨ whichLevel = fullHelp then
    { main := [],
      err := (helpInfo.filter (fun cat => cat.Category ≠ "")).map
        (fun cat => .detailBlock (whichLevel = fullHelp) cat.Category cat.Markers) }
  else if whichLevel = summaryHelp then
    { main := [],
      err := (helpInfo.filter (fun cat => cat.Category ≠ "")).map
        (fun cat => .summaryBlock cat.Category cat.Markers) }
  else
    { main := [], err := [] }

/-- What `genall.FromOptions` resolved for one invocation:
`generatorsCount` is `len(runtime.Generators)` and `hadErrs` the result
of the (external, all-or-nothing) `runtime.Run()` call. -/
structure Runtime where
  generatorsCount : Nat
  hadErrs : Bool
  deriving DecidableEq, Repr

/-- One CLI invocation of the composed command: the flag values parsed
by cobra and the results the external collaborators would return if
called.  `byCategoryOfOptions` is
`help.ByCategory(genall.RegistryFromOptions(registry, rawOpts), SortByCategory)`
(the marker-docs path), `byCategoryOfRegistry` is
`help.ByCategory(c.markerRegistry, SortByOption)` (the usage-function
path), and `fromOptions` is `genall.FromOptions(registry, rawOpts)`. -/
structure Invocation where
  showVersion : Bool
  helpLevel : Nat
  whichLevel : Nat
  byCategoryOfOptions : Except GoErr (List HelpCategory)
  byCategoryOfRegistry : List HelpCategory
  fromOptions : Except GoErr Runtime
  deriving Repr

/-- What one `RunE` call did: the writes to both streams and the
returned error (`none` = `nil`). -/
structure Outcome where
  stdout : List Rendered
  stderr : List Rendered
  err : Option GoErr
  deriving DecidableEq, Repr

/-- The `showVersion` branch: `version.Print()` writes to the primary
stream and `RunE` returns `nil`. -/
def versionBranch : Outcome :=
  { stdout := [.versionText], stderr := [], err := none }

/-- The custom usage function installed with `cmd.SetUsageFunc`: the old
cobra usage dump and the `Options` header go to the diagnostic stream,
then `helpForLevels` renders `c.markerRegistry` by option; a zero
`helpLevel` is first bumped to `summaryHelp`. -/
def usageFunc (helpLevel : Nat) (info : List HelpCategory) : HelpOut :=
  let lvl := if helpLevel = 0 then summaryHelp else helpLevel
  let h := helpForLevels lvl info
  { main := h.main, err := [.usageText, .optionsHeader] ++ h.err }

/-- The `helpLevel > 0` branch of `RunE`: `return ccmd.Usage()`. -/
def usageBranch (inv : Invocation) : Outcome :=
  let u := usageFunc inv.helpLevel inv.byCategoryOfRegistry
  { stdout := u.main, stderr := u.err, err := none }

/-- `printMarkerDocs`: resolve a registry scoped to the supplied options
(external; its failure propagates) and render at `whichLevel`. -/
def printMarkerDocs (inv : Invocation) : Outcome :=
  match inv.byCategoryOfOptions with
  | .error e => { stdout := [], stderr := [], err := some e }
  | .ok info =>
    let h := helpForLevels inv.whichLevel info
    { stdout := h.main, stderr := h.err, err := none }

/-- The generator-execution branch of `RunE`: build the runtime from the
options, fail with `"no generators specified"` when the resolved option
set selected zero generators, and wrap an aggregate run failure in
`noUsageError`. -/
def generatorsBranch (inv : Invocation) : Outcome :=
  match inv.fromOptions with
  | .error e => { stdout := [], stderr := [], err := some e }
  | .ok rt =>
    if rt.generatorsCount = 0 then
      { stdout := [], stderr := [],
        err := some (.errorString "no generators specified") }
    else if rt.hadErrs then
      { stdout := [], stderr := [],
        err := some (.noUsageError (.errorString "not all generators ran successfully")) }
    else
      { stdout := [], stderr := [], err := none }

/-- The `RunE` closure of `Cmd.cmd`: version, then detailed help, then
marker docs, then generator execution. -/
def runE (inv : Invocation) : Outcome :=
  if inv.showVersion then versionBranch
  else if 0 < inv.helpLevel then usageBranch inv
  else if 0 < inv.whichLevel then printMarkerDocs inv
  else generatorsBranch inv

/-- `var noUsageErr noUsageError`: the zero-value comparison target of
`errors.Is` in `Cmd.Run`. -/
def noUsageErr : GoErr := .noUsageErrorNil

/-- Observable result of one whole `Cmd.Run` invocation. -/
structure RunResult where
  stdout : List Rendered
  stderr : List Rendered
  exitCode : Nat
  deriving DecidableEq, Repr

/-- The top-level handler of `Cmd.Run` around `cmd.Execute()` (which,
with `SilenceUsage: true`, returns the `RunE` error unchanged): on an
error, dump the usage unless `errors.Is(err, noUsageErr)`, then print
the hint line and exit 1; on success exit 0.  `register` runs before
`cmd.Execute()` and is modelled separately (`register`); this function
models the invocation itself. -/
def Run (inv : Invocation) : RunResult :=
  let o := runE inv
  match o.err with
  | none => { stdout := o.stdout, stderr := o.stderr, exitCode := 0 }
  | some e =>
    let u := if errorsIs e noUsageErr then ({ main := [], err := [] } : HelpOut)
             else usageFunc inv.helpLevel inv.byCategoryOfRegistry
    { stdout := o.stdout ++ u.main,
      stderr := o.stderr ++ u.err ++ [.hintLine],
      exitCode := 1 }

/-- The heap of Go map values: `genMaps`/`ruleMaps` are the allocated
`map[string]genall.Generator` / `map[string]genall.OutputRule` cells, a
map reference being an index into the respective list.  (Go maps are
reference values: `make` allocates a cell, wholesale assignment shares
the cell, and `m[k] = v` mutates the shared cell.) -/
structure Store where
  genMaps : List GenMap
  ruleMaps : List RuleMap
  deriving DecidableEq, Repr

/-- The Go struct `Cmd` as held by the builder: map fields are
references into the `Store`.  (`markerRegistry` is always the fresh
empty registry allocated by `New` and is never touched by a builder
method, so it is not tracked here; `derefCmd` reinstates it.) -/
structure CmdRef where
  name : String
  description : String
  helper : String
  generators : Nat
  outputRules : Nat
  deriving DecidableEq, Repr

/-- `Builder = func() Cmd`, with the map heap made explicit: invoking a
builder yields the updated heap and the produced `Cmd` value. -/
abbrev Builder := Store → Store × CmdRef

/-- Read a generator-map cell (a dangling reference reads as empty;
builders only ever produce valid references). -/
def Store.genAt (σ : Store) (r : Nat) : GenMap := σ.genMaps.getD r []

/-- Read an output-rule-map cell. -/
def Store.ruleAt (σ : Store) (r : Nat) : RuleMap := σ.ruleMaps.getD r []

/-- Overwrite a generator-map cell. -/
def Store.setGen (σ : Store) (r : Nat) (m : GenMap) : Store :=
  { σ with genMaps := σ.genMaps.set r m }

/-- Overwrite an output-rule-map cell. -/
def Store.setRule (σ : Store) (r : Nat) (m : RuleMap) : Store :=
  { σ with ruleMaps := σ.ruleMaps.set r m }

/-- `New(name)`: a builder whose every invocation allocates a fresh
empty generator map and a fresh output-rule map pre-populated with
`"dir"` and `"stdout"`. -/
def New (name : String) : Builder := fun σ =>
  ({ genMaps := σ.genMaps ++ [[]],
     ruleMaps := σ.ruleMaps ++ [[("dir", OutputToDirectory), ("stdout", OutputToStdout)]] },
   { name := name, description := "", helper := "",
     generators := σ.genMaps.length, outputRules := σ.ruleMaps.length })

/-- `Builder.WithDescription`. -/
def Builder.WithDescription (b : Builder) (description : String) : Builder := fun σ =>
  let r := b σ
  (r.1, { r.2 with description := description })

/-- `Builder.WithHelper`. -/
def Builder.WithHelper (b : Builder) (helper : String) : Builder := fun σ =>
  let r := b σ
  (r.1, { r.2 with helper := helper })

/-- `Builder.WithGenerator`: `g := b(); g.generators[key] = generator` —
a mutation of the map cell `g.generators` refers to. -/
def Builder.WithGenerator (b : Builder) (key : String) (generator : Generator) : Builder := fun σ =>
  let r := b σ
  (r.1.setGen r.2.generators (mapInsert (r.1.genAt r.2.generators) key generator), r.2)

/-- `Builder.WithGenerators`: wholesale replacement; the configuration
now shares the caller-supplied map cell `generators`. -/
def Builder.WithGenerators (b : Builder) (generators : Nat) : Builder := fun σ =>
  let r := b σ
  (r.1, { r.2 with generators := generators })

/-- `Builder.WithOutputRule`: `g.outputRules[key] = outputRule`. -/
def Builder.WithOutputRule (b : Builder) (key : String) (outputRule : OutputRule) : Builder := fun σ =>
  let r := b σ
  (r.1.setRule r.2.outputRules (mapInsert (r.1.ruleAt r.2.outputRules) key outputRule), r.2)

/-- `Builder.WithOutputRules`: wholesale replacement of the output-rule
map by the caller-supplied cell. -/
def Builder.WithOutputRules (b : Builder) (outputRules : Nat) : Builder := fun σ =>
  let r := b σ
  (r.1, { r.2 with outputRules := outputRules })

/-- `Builder.Apply`: the terminal freeze, `return b()`. -/
def Builder.Apply (b : Builder) : Store → Store × CmdRef := b

/-- Dereference a produced `Cmd` into its pure configuration view
(the registry allocated by `New` is empty). -/
def derefCmd (σ : Store) (c : CmdRef) : Cmd :=
  { name := c.name, description := c.description, helper := c.helper,
    generators := σ.genAt c.generators,
    markerRegistry := Registry.empty,
    outputRules := σ.ruleAt c.outputRules }

/-- One fluent builder method call, as data. -/
inductive BStep where
  | withDescription (d : String)
  | withHelper (h : String)
  | withGenerator (key : String) (v : Generator)
  | withGenerators (r : Nat)
  | withOutputRule (key : String) (v : OutputRule)
  | withOutputRules (r : Nat)
  deriving DecidableEq, Repr

/-- Apply one fluent method call to a builder. -/
def applyStep (b : Builder) : BStep → Builder
  | .withDescription d => b.WithDescription d
  | .withHelper h => b.WithHelper h
  | .withGenerator k v => b.WithGenerator k v
  | .withGenerators r => b.WithGenerators r
  | .withOutputRule k v => b.WithOutputRule k v
  | .withOutputRules r => b.WithOutputRules r

/-- The builder obtained from `New(name)` by a chain of method calls. -/
def build (name : String) (steps : List BStep) : Builder :=
  steps.foldl applyStep (New name)

/-- The configuration `New(name)` produces, as a pure value. -/
def pureNew (name : String) : Cmd :=
  { name := name, description := "", helper := "",
    generators := [], markerRegistry := Registry.empty,
    outputRules := [("dir", OutputToDirectory), ("stdout", OutputToStdout)] }

/-- Pure (heap-free) semantics of one method call.  The two wholesale
replacements install a caller-owned map whose contents live in the
heap, so they have no heap-free meaning; they are left as the identity
here and excluded (`noWholesale`) wherever `pureStep` is used. -/
def pureStep (c : Cmd) : BStep → Cmd
  | .withDescription d => { c with description := d }
  | .withHelper h => { c with helper := h }
  | .withGenerator k v => { c with generators := mapInsert c.generators k v }
  | .withGenerators _ => c
  | .withOutputRule k v => { c with outputRules := mapInsert c.outputRules k v }
  | .withOutputRules _ => c

/-- Pure evaluation of a whole chain. -/
def pureEval (name : String) (steps : List BStep) : Cmd :=
  steps.foldl pureStep (pureNew name)

/-- `true` for the method calls that do not install a caller-owned map. -/
def noWholesale : BStep → Bool
  | .withGenerators _ => false
  | .withOutputRules _ => false
  | _ => true

/-- A successful `Register` appends exactly the new definition name. -/
theorem Register_ok_names {r r' : Registry} {n : String}
    (h : r.Register n = .ok r') : r'.names = r.names ++ [n] := by
  unfold Registry.Register at h
  split at h
  · exact absurd h (by simp)
  · cases h; rfl

/-- Attaching help does not change the registered names. -/
theorem addHelpIfPresent_names (r : Registry) (n : String) (h : Option String) :
    (addHelpIfPresent r n h).names = r.names := by
  cases h <;> rfl

/-- A successful per-generator rule-marker loop appends exactly the
`"output:<generator>:<rule>"` names, in rule order. -/
theorem registerGenRuleMarkers_names {genName : String} {rules : RuleMap} :
    ∀ {reg reg' : Registry},
      registerGenRuleMarkers genName rules reg = .ok reg' →
      reg'.names = reg.names ++ rules.map (fun q => "output:" ++ genName ++ ":" ++ q.1) := by
  induction rules with
  | nil =>
    intro reg reg' h
    simp only [registerGenRuleMarkers] at h
    cases h; simp
  | cons p rest ih =>
    intro reg reg' h
    obtain ⟨ruleName, rule⟩ := p
    simp only [registerGenRuleMarkers] at h
    split at h
    · exact absurd h (by simp)
    · rename_i regm hR
      rw [ih h, addHelpIfPresent_names, Register_ok_names hR]
      simp

/-- A successful generator loop appends exactly
`generatorMarkerNames`. -/
theorem registerGenerators_names {rules : RuleMap} {gens : GenMap} :
    ∀ {reg reg' : Registry},
      registerGenerators rules gens reg = .ok reg' →
      reg'.names = reg.names ++ generatorMarkerNames rules gens := by
  induction gens with
  | nil =>
    intro reg reg' h
    simp only [registerGenerators] at h
    cases h; simp [generatorMarkerNames]
  | cons p rest ih =>
    intro reg reg' h
    obtain ⟨genName, generator⟩ := p
    simp only [registerGenerators] at h
    split at h
    · exact absurd h (by simp)
    · rename_i reg1 hR1
      split at h
      · exact absurd h (by simp)
      · rename_i reg2 hR2
        rw [ih h, registerGenRuleMarkers_names hR2, addHelpIfPresent_names,
          Register_ok_names hR1]
        simp [generatorMarkerNames]

/-- A successful default-output loop appends exactly
`defaultOutputMarkerNames`. -/
theorem registerDefaultOutputMarkers_names {rules : RuleMap} :
    ∀ {reg reg' : Registry},
      registerDefaultOutputMarkers rules reg = .ok reg' →
      reg'.names = reg.names ++ defaultOutputMarkerNames rules := by
  induction rules with
  | nil =>
    intro reg reg' h
    simp only [registerDefaultOutputMarkers] at h
    cases h; simp [defaultOutputMarkerNames]
  | cons p rest ih =>
    intro reg reg' h
    obtain ⟨ruleName, rule⟩ := p
    simp only [registerDefaultOutputMarkers] at h
    split at h
    · exact absurd h (by simp)
    · rename_i regm hR
      rw [ih h, addHelpIfPresent_names, Register_ok_names hR]
      simp [defaultOutputMarkerNames]

/-- A successful built-in loop appends exactly the built-in names. -/
theorem registerBuiltins_names {opts : List String} :
    ∀ {reg reg' : Registry},
      registerBuiltins opts reg = .ok reg' →
      reg'.names = reg.names ++ opts := by
  induction opts with
  | nil =>
    intro reg reg' h
    simp only [registerBuiltins] at h
    cases h; simp
  | cons n rest ih =>
    intro reg reg' h
    simp only [registerBuiltins] at h
    split at h
    · exact absurd h (by simp)
    · rename_i regm hR
      rw [ih h, Register_ok_names hR]
      simp

/-- A successful `register` run appends exactly the generator markers,
the default-output markers and the built-in option markers, in that
order. -/
theorem register_names {g : Cmd} {optionsMarkers : List String} {reg' : Registry}
    (h : register g optionsMarkers = .ok reg') :
    reg'.names = g.markerRegistry.names
      ++ generatorMarkerNames g.outputRules g.generators
      ++ defaultOutputMarkerNames g.outputRules
      ++ optionsMarkers := by
  unfold register at h
  split at h
  · exact absurd h (by simp)
  · rename_i reg1 h1
    split at h
    · exact absurd h (by simp)
    · rename_i reg2 h2
      rw [registerBuiltins_names h, registerDefaultOutputMarkers_names h2,
        registerGenerators_names h1]

/-- Membership in the generator-derived marker names. -/
theorem mem_generatorMarkerNames {rules : RuleMap} {gens : GenMap} {n : String} :
    n ∈ generatorMarkerNames rules gens ↔
      ((∃ p ∈ gens, n = p.1) ∨
       (∃ p ∈ gens, ∃ q ∈ rules, n = "output:" ++ p.1 ++ ":" ++ q.1)) := by
  induction gens with
  | nil => simp [generatorMarkerNames]
  | cons p rest ih =>
    obtain ⟨genName, generator⟩ := p
    simp only [generatorMarkerNames, List.mem_append, List.mem_cons, List.mem_map, ih]
    constructor
    · rintro ((h | ⟨q, hq, rfl⟩) | (⟨p, hp, rfl⟩ | ⟨p, hp, q, hq, rfl⟩))
      · exact Or.inl ⟨(genName, generator), Or.inl rfl, h⟩
      · exact Or.inr ⟨(genName, generator), Or.inl rfl, q, hq, rfl⟩
      · exact Or.inl ⟨p, Or.inr hp, rfl⟩
      · exact Or.inr ⟨p, Or.inr hp, q, hq, rfl⟩
    · rintro (⟨p, rfl | hp, rfl⟩ | ⟨p, rfl | hp, q, hq, rfl⟩)
      · exact Or.inl (Or.inl rfl)
      · exact Or.inr (Or.inl ⟨p, hp, rfl⟩)
      · exact Or.inl (Or.inr ⟨q, hq, rfl⟩)
      · exact Or.inr (Or.inr ⟨p, hp, q, hq, rfl⟩)

/-- Claim C1: after a successful registration of a frozen configuration
(empty initial registry), the registry contains exactly one marker named
as each generator, one named `"output:<generator>:<rule>"` per
generator × output-rule pair, one named `"output:<rule>"` per
output rule, and the engine's built-in option markers — and nothing
else. -/
theorem C1_registered_marker_names (g : Cmd) (optionsMarkers : List String) (reg' : Registry)
    (hempty : g.markerRegistry = Registry.empty)
    (hok : register g optionsMarkers = .ok reg') (n : String) :
    n ∈ reg'.names ↔
      ((∃ p ∈ g.generators, n = p.1) ∨
       (∃ p ∈ g.generators, ∃ q ∈ g.outputRules, n = "output:" ++ p.1 ++ ":" ++ q.1) ∨
       (∃ q ∈ g.outputRules, n = "output:" ++ q.1) ∨
       n ∈ optionsMarkers) := by
  rw [register_names hok, hempty]
  simp only [Registry.empty, List.nil_append, List.mem_append, mem_generatorMarkerNames,
    defaultOutputMarkerNames, List.mem_map]
  constructor
  · rintro (((h | h) | ⟨q, hq, rfl⟩) | h)
    · exact Or.inl h
    · exact Or.inr (Or.inl h)
    · exact Or.inr (Or.inr (Or.inl ⟨q, hq, rfl⟩))
    · exact Or.inr (Or.inr (Or.inr h))
  · rintro (h | h | ⟨q, hq, rfl⟩ | h)
    · exact Or.inl (Or.inl (Or.inl h))
    · exact Or.inl (Or.inl (Or.inr h))
    · exact Or.inl (Or.inr ⟨q, hq, rfl⟩)
    · exact Or.inr h

/-- Concrete frozen configuration used by several witnesses: a tool
named `demo` with one generator `obj` and the default output rules. -/
def demoCmd : Cmd :=
  { name := "demo", description := "", helper := "",
    generators := [("obj", { id := 1, help := none })],
    markerRegistry := Registry.empty,
    outputRules := [("dir", OutputToDirectory), ("stdout", OutputToStdout)] }

/-- Witness for C1: the registry registered for `demoCmd` (with one
built-in option marker `paths`) contains `"output:obj:dir"`, and the
characterization of C1 holds there. -/
theorem C1_witness :
    "output:obj:dir" ∈ (Registry.mk
        ["obj", "output:obj:dir", "output:obj:stdout", "output:dir", "output:stdout", "paths"]
        []).names ↔
      ((∃ p ∈ demoCmd.generators, "output:obj:dir" = p.1) ∨
       (∃ p ∈ demoCmd.generators, ∃ q ∈ demoCmd.outputRules,
          "output:obj:dir" = "output:" ++ p.1 ++ ":" ++ q.1) ∨
       (∃ q ∈ demoCmd.outputRules, "output:obj:dir" = "output:" ++ q.1) ∨
       "output:obj:dir" ∈ ["paths"]) :=
  C1_registered_marker_names demoCmd ["paths"]
    (Registry.mk
      ["obj", "output:obj:dir", "output:obj:stdout", "output:dir", "output:stdout", "paths"]
      [])
    rfl rfl "output:obj:dir"

/-- An invocation (no version/help/listing flags) whose generator run
reports aggregate failure. -/
def aggregateFailureInv : Invocation :=
  { showVersion := false, helpLevel := 0, whichLevel := 0,
    byCategoryOfOptions := .ok [], byCategoryOfRegistry := [],
    fromOptions := .ok { generatorsCount := 1, hadErrs := true } }

/-- Claim C2, evaluated at the failing input: the dispatcher does return
the usage-suppression wrapper around `"not all generators ran
successfully"`, and the hint line and non-zero exit occur — but the
handler prints the usage text anyway, because
`errors.Is(noUsageError{inner}, noUsageError{})` is `false`
(`noUsageError` implements neither `Is` nor `Unwrap`, and the two
values are unequal), so the suppression never takes effect.  This
contradicts the code's own comments ("print the usage unless we
suppressed it", "don't obscure the actual error with a bunch of
usage"). -/
theorem C2_usage_suppression_bug :
    (runE aggregateFailureInv).err
      = some (.noUsageError (.errorString "not all generators ran successfully")) ∧
    errorsIs (.noUsageError (.errorString "not all generators ran successfully")) noUsageErr
      = false ∧
    Rendered.usageText ∈ (Run aggregateFailureInv).stderr ∧
    Rendered.hintLine ∈ (Run aggregateFailureInv).stderr ∧
    (Run aggregateFailureInv).exitCode = 1 := by decide

/-- Claim C7: the dispatcher evaluates exactly one branch per invocation
in strict priority order: if the version flag is set it prints the
version string and exits 0, regardless of every other flag; otherwise a
nonzero help counter selects the usage branch, then a nonzero
marker-listing counter selects the marker-docs branch, and only
otherwise do the generators run. -/
theorem C7_dispatch_priority (inv : Invocation) :
    (inv.showVersion = true →
      Run inv = { stdout := [.versionText], stderr := [], exitCode := 0 }) ∧
    (inv.showVersion = false → 0 < inv.helpLevel → runE inv = usageBranch inv) ∧
    (inv.showVersion = false → inv.helpLevel = 0 → 0 < inv.whichLevel →
      runE inv = printMarkerDocs inv) ∧
    (inv.showVersion = false → inv.helpLevel = 0 → inv.whichLevel = 0 →
      runE inv = generatorsBranch inv) := by
  refine ⟨fun hv => ?_, fun hv hh => ?_, fun hv hh hw => ?_, fun hv hh hw => ?_⟩
  · simp [Run, runE, hv, versionBranch]
  · simp [runE, hv, hh]
  · simp [runE, hv, hh, hw]
  · simp [runE, hv, hh, hw]

/-- Witness for C7: with the version flag set and both counters nonzero,
the whole invocation prints only the version and exits 0. -/
theorem C7_witness :
    Run { showVersion := true, helpLevel := 3, whichLevel := 2,
          byCategoryOfOptions := .ok [], byCategoryOfRegistry := [],
          fromOptions := .error (.errorString "unused") }
      = { stdout := [.versionText], stderr := [], exitCode := 0 } :=
  (C7_dispatch_priority _).1 rfl

/-- Claim C8: when the resolved options select zero generators, the
dispatcher fails with `"no generators specified"`, the error is not
usage-suppressed (the usage text is printed), the hint line follows and
the exit status is 1. -/
theorem C8_no_generators (inv : Invocation) (rt : Runtime)
    (hv : inv.showVersion = false) (hh : inv.helpLevel = 0) (hw : inv.whichLevel = 0)
    (hfo : inv.fromOptions = .ok rt) (hz : rt.generatorsCount = 0) :
    (runE inv).err = some (.errorString "no generators specified") ∧
    Rendered.usageText ∈ (Run inv).stderr ∧
    Rendered.hintLine ∈ (Run inv).stderr ∧
    (Run inv).exitCode = 1 := by
  have herr : runE inv
      = { stdout := [], stderr := [],
          err := some (.errorString "no generators specified") } := by
    simp [runE, hv, hh, hw, generatorsBranch, hfo, hz]
  refine ⟨by rw [herr], ?_, ?_, ?_⟩ <;>
    simp [Run, herr, errorsIs, noUsageErr, usageFunc]

/-- An invocation whose resolved options select zero generators. -/
def noGeneratorsInv : Invocation :=
  { showVersion := false, helpLevel := 0, whichLevel := 0,
    byCategoryOfOptions := .ok [], byCategoryOfRegistry := [],
    fromOptions := .ok { generatorsCount := 0, hadErrs := false } }

/-- Witness for C8 at a concrete invocation resolving zero
generators. -/
theorem C8_witness :
    (runE noGeneratorsInv).err = some (.errorString "no generators specified") ∧
    Rendered.usageText ∈ (Run noGeneratorsInv).stderr ∧
    Rendered.hintLine ∈ (Run noGeneratorsInv).stderr ∧
    (Run noGeneratorsInv).exitCode = 1 :=
  C8_no_generators noGeneratorsInv { generatorsCount := 0, hadErrs := false }
    rfl rfl rfl rfl rfl

/-- Claim C6: a marker-listing counter of 0 takes the default
(generator-execution) path; counters 1, 2, 3, 4 render summary,
detailed, full and json respectively, with json one structured document
on the primary stream and the other levels per-category blocks on the
diagnostic stream that skip every category whose name is empty. -/
theorem C6_marker_listing (inv : Invocation) (info : List HelpCategory) :
    (inv.showVersion = false → inv.helpLevel = 0 → inv.whichLevel = 0 →
      runE inv = generatorsBranch inv) ∧
    (∀ i, inv.showVersion = false → inv.helpLevel = 0 → 0 < inv.whichLevel →
      inv.byCategoryOfOptions = .ok i →
      runE inv = { stdout := (helpForLevels inv.whichLevel i).main,
                   stderr := (helpForLevels inv.whichLevel i).err, err := none }) ∧
    helpForLevels 1 info
      = { main := [],
          err := (info.filter (fun cat => cat.Category ≠ "")).map
            (fun cat => .summaryBlock cat.Category cat.Markers) } ∧
    helpForLevels 2 info
      = { main := [],
          err := (info.filter (fun cat => cat.Category ≠ "")).map
            (fun cat => .detailBlock false cat.Category cat.Markers) } ∧
    helpForLevels 3 info
      = { main := [],
          err := (info.filter (fun cat => cat.Category ≠ "")).map
            (fun cat => .detailBlock true cat.Category cat.Markers) } ∧
    helpForLevels 4 info = { main := [.jsonDoc info], err := [] } := by
  refine ⟨fun hv hh hw => ?_, fun i hv hh hw hbc => ?_, ?_, ?_, ?_, ?_⟩
  · simp [runE, hv, hh, hw]
  · simp [runE, hv, hh, hw, printMarkerDocs, hbc]
  · simp [helpForLevels, jsonHelp, detailedHelp, fullHelp, summaryHelp]
  · simp [helpForLevels, jsonHelp, detailedHelp, fullHelp, summaryHelp]
  · simp [helpForLevels, jsonHelp, detailedHelp, fullHelp, summaryHelp]
  · simp [helpForLevels, jsonHelp]

/-- A marker-listing invocation at level 3 (full detail) whose resolved
registry has one named and one unnamed category. -/
def listingInv : Invocation :=
  { showVersion := false, helpLevel := 0, whichLevel := 3,
    byCategoryOfOptions := .ok
      [{ Category := "CLI", Markers := ["m1"] }, { Category := "", Markers := ["internal"] }],
    byCategoryOfRegistry := [],
    fromOptions := .error (.errorString "unused") }

/-- Witness for C6 at `listingInv`. -/
theorem C6_witness :
    runE listingInv
      = { stdout := (helpForLevels 3
            [{ Category := "CLI", Markers := ["m1"] },
             { Category := "", Markers := ["internal"] }]).main,
          stderr := (helpForLevels 3
            [{ Category := "CLI", Markers := ["m1"] },
             { Category := "", Markers := ["internal"] }]).err,
          err := none } :=
  (C6_marker_listing listingInv []).2.1
    [{ Category := "CLI", Markers := ["m1"] }, { Category := "", Markers := ["internal"] }]
    rfl rfl (by decide) rfl

/-- Claim C4 counterexample: at marker-listing level 5 the rendering is
not that of level 4 (json): the switch has no default case, so level 5
renders nothing at all while level 4 emits the json document. -/
theorem C4_counterexample :
    helpForLevels 5 [{ Category := "CLI", Markers := ["m1"] }]
      ≠ helpForLevels 4 [{ Category := "CLI", Markers := ["m1"] }] := by decide

/-- Claim C4 (amended): the repeated flag count is not capped at 4: any
level greater than 4 matches no case of the switch, so nothing is
rendered on either stream and the marker-docs invocation succeeds with
no output (instead of rendering json like level 4 does). -/
theorem C4_amended (lvl : Nat) (info : List HelpCategory) (inv : Invocation)
    (i : List HelpCategory)
    (h4 : 4 < lvl) (hv : inv.showVersion = false) (hh : inv.helpLevel = 0)
    (hw : inv.whichLevel = lvl) (hbc : inv.byCategoryOfOptions = .ok i) :
    helpForLevels lvl info = { main := [], err := [] } ∧
    runE inv = { stdout := [], stderr := [], err := none } := by
  have hne4 : ¬(lvl = 4) := by omega
  have hne3 : ¬(lvl = 3) := by omega
  have hne2 : ¬(lvl = 2) := by omega
  have hne1 : ¬(lvl = 1) := by omega
  have hall : ∀ j : List HelpCategory, helpForLevels lvl j = { main := [], err := [] } := by
    intro j
    simp [helpForLevels, jsonHelp, detailedHelp, fullHelp, summaryHelp,
      hne4, hne3, hne2, hne1]
  have hne0 : ¬(lvl = 0) := by omega
  have h0 : 0 < inv.whichLevel := by rw [hw]; omega
  refine ⟨hall info, ?_⟩
  simp [runE, hv, hh, h0, printMarkerDocs, hbc, hw, hall i, hne0]

/-- Witness for C4 (amended) at level 5. -/
theorem C4_witness :
    helpForLevels 5 [{ Category := "CLI", Markers := ["m1"] }] = { main := [], err := [] } ∧
    runE { showVersion := false, helpLevel := 0, whichLevel := 5,
           byCategoryOfOptions := .ok [{ Category := "CLI", Markers := ["m1"] }],
           byCategoryOfRegistry := [], fromOptions := .error (.errorString "unused") }
      = { stdout := [], stderr := [], err := none } :=
  C4_amended 5 [{ Category := "CLI", Markers := ["m1"] }]
    { showVersion := false, helpLevel := 0, whichLevel := 5,
      byCategoryOfOptions := .ok [{ Category := "CLI", Markers := ["m1"] }],
      byCategoryOfRegistry := [], fromOptions := .error (.errorString "unused") }
    [{ Category := "CLI", Markers := ["m1"] }]
    (by decide) rfl rfl rfl rfl

/-- Claim C10: `Title` requires a non-empty input: on a non-empty rune
sequence it returns the sequence with exactly its first rune sent
through `unicode.ToUpper` (the parameter `toUpper`) and the remaining
runes unchanged; on the empty string the access `r[0]` is an
index-out-of-range panic (`none`) instead of a value. -/
theorem C10_Title_spec (toUpper : Char → Char) (s : List Char) (h : s ≠ []) :
    Title toUpper s = some (toUpper (s.head h) :: s.tail) ∧
    Title toUpper [] = none := by
  refine ⟨?_, rfl⟩
  cases s with
  | nil => exact absurd rfl h
  | cons c cs => rfl

/-- Witness for C10 on the rune sequence `ab`. -/
theorem C10_witness :
    Title Char.toUpper ['a', 'b'] = some ['A', 'b'] ∧
    Title Char.toUpper [] = none :=
  ⟨(C10_Title_spec Char.toUpper ['a', 'b'] (by decide)).1.trans (by decide),
   (C10_Title_spec Char.toUpper ['a', 'b'] (by decide)).2⟩

/-- `set` past the taken prefix does not change that prefix. -/
theorem take_set_of_le {α : Type} :
    ∀ (l : List α) (i : Nat) (a : α) (n : Nat), n ≤ i → (l.set i a).take n = l.take n
  | [], _, _, _, _ => rfl
  | _ :: _, _, _, 0, _ => by simp
  | _ :: _, 0, _, _ + 1, h => absurd h (by omega)
  | x :: xs, i + 1, a, n + 1, h => by
    show x :: (xs.set i a).take n = x :: xs.take n
    rw [take_set_of_le xs i a n (by omega)]

/-- Reading the cell just written (in range). -/
theorem getD_set_self {α : Type} :
    ∀ (l : List α) (i : Nat) (a d : α), i < l.length → (l.set i a).getD i d = a
  | [], _, _, _, h => absurd h (by simp)
  | _ :: _, 0, _, _, _ => rfl
  | x :: xs, i + 1, a, d, h => by
    show (xs.set i a).getD i d = a
    exact getD_set_self xs i a d (by simpa using h)

/-- Reading a different cell than the one written. -/
theorem getD_set_ne {α : Type} :
    ∀ (l : List α) (i j : Nat) (a d : α), i ≠ j → (l.set i a).getD j d = l.getD j d
  | [], _, _, _, _, _ => rfl
  | _ :: _, 0, 0, _, _, h => absurd rfl h
  | _ :: _, 0, _ + 1, _, _, _ => rfl
  | _ :: _, _ + 1, 0, _, _, _ => rfl
  | x :: xs, i + 1, j + 1, a, d, h => by
    show (xs.set i a).getD j d = xs.getD j d
    exact getD_set_ne xs i j a d (by omega)

/-- Reading inside the left part of an append. -/
theorem getD_append_left {α : Type} :
    ∀ (l l' : List α) (i : Nat) (d : α), i < l.length → (l ++ l').getD i d = l.getD i d
  | [], _, _, _, h => absurd h (by simp)
  | _ :: _, _, 0, _, _ => rfl
  | x :: xs, l', i + 1, d, h => by
    show (xs ++ l').getD i d = xs.getD i d
    exact getD_append_left xs l' i d (by simpa using h)

/-- Reading the freshly appended cell. -/
theorem getD_append_length {α : Type} :
    ∀ (l : List α) (a d : α), (l ++ [a]).getD l.length d = a
  | [], _, _ => rfl
  | _ :: xs, a, d => getD_append_length xs a d

/-- An out-of-range `set` is the identity. -/
theorem set_of_length_le {α : Type} :
    ∀ (l : List α) (i : Nat) (a : α), l.length ≤ i → l.set i a = l
  | [], _, _, _ => rfl
  | _ :: _, 0, _, h => absurd h (by simp)
  | x :: xs, i + 1, a, h => by
    show x :: xs.set i a = x :: xs
    rw [set_of_length_le xs i a (by simpa using h)]

/-- Two writes to the same cell keep only the second. -/
theorem set_set_self {α : Type} :
    ∀ (l : List α) (i : Nat) (a b : α), (l.set i a).set i b = l.set i b
  | [], _, _, _ => rfl
  | _ :: _, 0, _, _ => rfl
  | x :: xs, i + 1, a, b => by
    show x :: (xs.set i a).set i b = x :: xs.set i b
    rw [set_set_self xs i a b]

/-- Go map assignment under the same key keeps only the second value. -/
theorem mapInsert_mapInsert {α : Type} :
    ∀ (m : List (String × α)) (k : String) (v1 v2 : α),
      mapInsert (mapInsert m k v1) k v2 = mapInsert m k v2
  | [], k, v1, v2 => by simp [mapInsert]
  | p :: rest, k, v1, v2 => by
    by_cases hp : p.1 = k
    · simp [mapInsert, hp]
    · simp [mapInsert, hp, mapInsert_mapInsert rest k v1 v2]

/-- The frozen configuration obtained after adding two generators under
the same key `g` to a fresh builder, on an empty heap. -/
def duplicateKeyCmd : Cmd :=
  (fun r => derefCmd r.1 r.2)
    ((((New "t").WithGenerator "g" { id := 1, help := none }).WithGenerator
        "g" { id := 2, help := none }).Apply { genMaps := [], ruleMaps := [] })

/-- Claim C3 counterexample: configuring two generators with the same
name does not abort and does not fail during registration: the freeze
succeeds with the second generator silently kept (partial silent
success), and `register` succeeds as well. -/
theorem C3_counterexample :
    duplicateKeyCmd.generators = [("g", { id := 2, help := none })] ∧
    register duplicateKeyCmd ["paths"]
      = .ok (Registry.mk
          ["g", "output:g:dir", "output:g:stdout", "output:dir", "output:stdout", "paths"]
          []) :=
  ⟨rfl, rfl⟩

/-- Claim C3 (amended): adding a second generator under an existing key
never aborts; the assignment `g.generators[key] = generator` silently
overwrites, so the duplicated chain freezes to exactly the state of the
chain containing only the second call (last-writer-wins), and
registration then proceeds on that single surviving generator.  An
abort before generator execution happens only when two registered
marker names collide inside the registry. -/
theorem C3_amended (b : Builder) (key : String) (v1 v2 : Generator) (σ : Store) :
    ((b.WithGenerator key v1).WithGenerator key v2).Apply σ
      = (b.WithGenerator key v2).Apply σ := by
  simp only [Builder.Apply, Builder.WithGenerator]
  cases hr : b σ with
  | mk σ1 c =>
    simp only [Store.setGen, Store.genAt]
    by_cases hi : c.generators < σ1.genMaps.length
    · rw [set_set_self, getD_set_self _ _ _ _ hi, mapInsert_mapInsert]
    · rw [set_of_length_le σ1.genMaps c.generators
        (mapInsert (σ1.genMaps.getD c.generators []) key v1) (by omega)]

/-- Claim C5 counterexample: builder methods are not side-effect-free
once a caller-owned map has been installed wholesale: on a heap holding
one caller-owned empty generator map (cell 0), let `b1` be
`New("t").WithGenerators(cell 0)` and `b2 := b1.WithGenerator(...)`.
Invoking `b2` mutates the caller-visible cell 0, and afterwards the
configuration produced by the original builder `b1` has changed: it now
contains the generator added through `b2`. -/
theorem C5_counterexample :
    (let σ0 : Store := { genMaps := [[]], ruleMaps := [] }
     let b1 := (New "t").WithGenerators 0
     let b2 := b1.WithGenerator "k" { id := 7, help := none }
     let σ2 := (b2.Apply σ0).1
     σ2.genAt 0 ≠ σ0.genAt 0 ∧
     derefCmd (b1.Apply σ2).1 (b1.Apply σ2).2
       ≠ derefCmd (b1.Apply σ0).1 (b1.Apply σ0).2) := by
  decide

/-- Claim C9: a freshly built configuration's output-rule mapping holds
exactly the two defaults `dir` and `stdout`; replacing the mapping
wholesale (`WithOutputRules`) installs the caller's map, discarding the
defaults and every previously added individual rule from the frozen
configuration (hence from what registration derives); and adding a rule
individually (`WithOutputRule`) after the wholesale replace is additive
to the replaced mapping. -/
theorem C9_output_rules (name k1 k2 : String) (v1 v2 : OutputRule) (σ : Store)
    (r : Nat) (m : RuleMap) (hr : r < σ.ruleMaps.length) (hm : σ.ruleAt r = m) :
    (derefCmd ((New name).Apply σ).1 ((New name).Apply σ).2).outputRules
      = [("dir", OutputToDirectory), ("stdout", OutputToStdout)] ∧
    (derefCmd ((((New name).WithOutputRule k1 v1).WithOutputRules r).Apply σ).1
        ((((New name).WithOutputRule k1 v1).WithOutputRules r).Apply σ).2).outputRules
      = m ∧
    (derefCmd
        (((((New name).WithOutputRule k1 v1).WithOutputRules r).WithOutputRule k2 v2).Apply σ).1
        (((((New name).WithOutputRule k1 v1).WithOutputRules r).WithOutputRule k2 v2).Apply σ).2).outputRules
      = mapInsert m k2 v2 := by
  simp only [Store.ruleAt] at hm
  have hne : σ.ruleMaps.length ≠ r := by omega
  simp only [Builder.Apply, New, Builder.WithOutputRule, Builder.WithOutputRules,
    derefCmd, Store.ruleAt, Store.setRule, Store.genAt]
  refine ⟨?_, ?_, ?_⟩
  · rw [getD_append_length]
  · rw [getD_set_ne _ _ _ _ _ hne, getD_append_left _ _ _ _ hr, hm]
  · rw [getD_set_self _ _ _ _ (by simp; omega),
      getD_set_ne _ _ _ _ _ hne, getD_append_left _ _ _ _ hr, hm]

/-- Witness for C9 on a heap holding one caller-owned output-rule map. -/
theorem C9_witness :
    (derefCmd ((New "t").Apply
          { genMaps := [], ruleMaps := [[("custom", { id := 5, help := none })]] }).1
        ((New "t").Apply
          { genMaps := [], ruleMaps := [[("custom", { id := 5, help := none })]] }).2).outputRules
      = [("dir", OutputToDirectory), ("stdout", OutputToStdout)] ∧
    (derefCmd ((((New "t").WithOutputRule "k1" { id := 8, help := none }).WithOutputRules 0).Apply
          { genMaps := [], ruleMaps := [[("custom", { id := 5, help := none })]] }).1
        ((((New "t").WithOutputRule "k1" { id := 8, help := none }).WithOutputRules 0).Apply
          { genMaps := [], ruleMaps := [[("custom", { id := 5, help := none })]] }).2).outputRules
      = [("custom", { id := 5, help := none })] ∧
    (derefCmd
        (((((New "t").WithOutputRule "k1" { id := 8, help := none }).WithOutputRules 0).WithOutputRule
              "k2" { id := 9, help := none }).Apply
          { genMaps := [], ruleMaps := [[("custom", { id := 5, help := none })]] }).1
        (((((New "t").WithOutputRule "k1" { id := 8, help := none }).WithOutputRules 0).WithOutputRule
              "k2" { id := 9, help := none }).Apply
          { genMaps := [], ruleMaps := [[("custom", { id := 5, help := none })]] }).2).outputRules
      = mapInsert [("custom", { id := 5, help := none })] "k2" { id := 9, help := none } :=
  C9_output_rules "t" "k1" "k2" { id := 8, help := none } { id := 9, help := none }
    { genMaps := [], ruleMaps := [[("custom", { id := 5, help := none })]] }
    0 [("custom", { id := 5, help := none })] (by decide) rfl

/-- The pure evaluation never touches the registry allocated by `New`. -/
theorem pureEval_markerRegistry (name : String) (steps : List BStep) :
    (pureEval name steps).markerRegistry = Registry.empty := by
  induction steps using List.reverseRecOn with
  | nil => rfl
  | append_singleton steps s ih =>
    have hp : pureEval name (steps ++ [s]) = pureStep (pureEval name steps) s := by
      simp [pureEval, List.foldl_append]
    rw [hp]
    cases s <;> simp [pureStep, ih]

/-- Invariant of running a chain of non-wholesale method calls from
`New` on an arbitrary heap: exactly one generator cell and one rule
cell are allocated (at the old lengths), the caller's cells survive
unchanged in the prefix, and the produced configuration's fields equal
the heap-independent pure evaluation. -/
theorem build_spec (name : String) (steps : List BStep) (σ : Store) :
    (∀ s ∈ steps, noWholesale s = true) →
    ((build name steps σ).1.genMaps.length = σ.genMaps.length + 1 ∧
     (build name steps σ).1.ruleMaps.length = σ.ruleMaps.length + 1 ∧
     (build name steps σ).2.generators = σ.genMaps.length ∧
     (build name steps σ).2.outputRules = σ.ruleMaps.length) ∧
    ((build name steps σ).1.genMaps.take σ.genMaps.length = σ.genMaps ∧
     (build name steps σ).1.ruleMaps.take σ.ruleMaps.length = σ.ruleMaps) ∧
    ((build name steps σ).1.genAt (build name steps σ).2.generators
        = (pureEval name steps).generators ∧
     (build name steps σ).1.ruleAt (build name steps σ).2.outputRules
        = (pureEval name steps).outputRules ∧
     (build name steps σ).2.name = (pureEval name steps).name ∧
     (build name steps σ).2.description = (pureEval name steps).description ∧
     (build name steps σ).2.helper = (pureEval name steps).helper) := by
  induction steps using List.reverseRecOn with
  | nil =>
    intro _
    refine ⟨⟨?_, ?_, rfl, rfl⟩, ⟨?_, ?_⟩, ?_, ?_, rfl, rfl, rfl⟩ <;>
      simp [build, New, Store.genAt, Store.ruleAt, pureEval, pureNew,
        List.take_left, getD_append_length]
  | append_singleton steps s ih =>
    intro h
    have hsteps : ∀ t ∈ steps, noWholesale t = true :=
      fun t ht => h t (List.mem_append_left _ ht)
    have hs : noWholesale s = true :=
      h s (List.mem_append_right _ (List.mem_singleton_self s))
    obtain ⟨⟨hl1, hl2, hc1, hc2⟩, ⟨ht1, ht2⟩, hf1, hf2, hf3, hf4, hf5⟩ := ih hsteps
    have hb : build name (steps ++ [s]) σ = applyStep (build name steps) s σ := by
      simp [build, List.foldl_append]
    have hp : pureEval name (steps ++ [s]) = pureStep (pureEval name steps) s := by
      simp [pureEval, List.foldl_append]
    rw [hb, hp]
    cases s with
    | withGenerators r => simp [noWholesale] at hs
    | withOutputRules r => simp [noWholesale] at hs
    | withDescription d =>
      simp only [applyStep, Builder.WithDescription]
      exact ⟨⟨hl1, hl2, hc1, hc2⟩, ⟨ht1, ht2⟩, hf1, hf2, hf3, by simp [pureStep, hf4], hf5⟩
    | withHelper hh =>
      simp only [applyStep, Builder.WithHelper]
      exact ⟨⟨hl1, hl2, hc1, hc2⟩, ⟨ht1, ht2⟩, hf1, hf2, hf3, hf4, by simp [pureStep, hf5]⟩
    | withGenerator k v =>
      simp only [applyStep, Builder.WithGenerator, Store.setGen, Store.genAt]
      have hin : (build name steps σ).2.generators < (build name steps σ).1.genMaps.length := by
        omega
      refine ⟨⟨by simp [hl1], hl2, hc1, hc2⟩,
        ⟨?_, ht2⟩, ?_, hf2, hf3, hf4, hf5⟩
      · rw [take_set_of_le _ _ _ _ (le_of_eq hc1.symm)]
        exact ht1
      · rw [getD_set_self _ _ _ _ hin]
        simp only [Store.genAt] at hf1
        simp only [pureStep]
        rw [hf1]
    | withOutputRule k v =>
      simp only [applyStep, Builder.WithOutputRule, Store.setRule, Store.ruleAt]
      have hin : (build name steps σ).2.outputRules < (build name steps σ).1.ruleMaps.length := by
        omega
      refine ⟨⟨hl1, by simp [hl2], hc1, hc2⟩,
        ⟨ht1, ?_⟩, hf1, ?_, hf3, hf4, hf5⟩
      · rw [take_set_of_le _ _ _ _ (le_of_eq hc2.symm)]
        exact ht2
      · rw [getD_set_self _ _ _ _ hin]
        simp only [Store.ruleAt] at hf2
        simp only [pureStep]
        rw [hf2]

/-- Claim C5 (amended): builder methods are side-effect-free and
copy-on-write as long as no caller-owned map is installed wholesale
(`WithGenerators`/`WithOutputRules` share the caller's map, and a later
per-entry method then mutates caller-visible state, see the
counterexample): for every chain of the remaining methods, invoking the
built builder leaves every pre-existing heap cell unchanged and
produces a configuration equal to a heap-independent pure evaluation —
so no method application can change what the original builder produces;
builder composition is associative (chaining is a fold, so splitting a
chain anywhere gives the same builder); and the terminal freeze
`Apply` has no failure mode of its own — it is the total function that
merely invokes the accumulated builder. -/
theorem C5_builder_purity (name : String) (steps : List BStep)
    (h : ∀ s ∈ steps, noWholesale s = true) (σ : Store) :
    ((build name steps).Apply σ).1.genMaps.take σ.genMaps.length = σ.genMaps ∧
    ((build name steps).Apply σ).1.ruleMaps.take σ.ruleMaps.length = σ.ruleMaps ∧
    derefCmd ((build name steps).Apply σ).1 ((build name steps).Apply σ).2
      = pureEval name steps ∧
    (∀ (s1 s2 : List BStep) (τ : Store),
      build name (s1 ++ s2) τ = s2.foldl applyStep (build name s1) τ) ∧
    (∀ (b : Builder) (τ : Store), b.Apply τ = b τ) := by
  obtain ⟨⟨hl1, hl2, hc1, hc2⟩, ⟨ht1, ht2⟩, hf1, hf2, hf3, hf4, hf5⟩ :=
    build_spec name steps σ h
  refine ⟨ht1, ht2, ?_, ?_, fun b τ => rfl⟩
  · have hreg := pureEval_markerRegistry name steps
    show derefCmd (build name steps σ).1 (build name steps σ).2 = pureEval name steps
    rw [derefCmd, hf1, hf2, hf3, hf4, hf5, ← hreg]
  · intro s1 s2 τ
    simp [build, List.foldl_append]

/-- Witness for C5 (amended) on a chain with a description and one
generator, run on the empty heap. -/
theorem C5_witness :
    derefCmd
        ((build "t" [.withDescription "d", .withGenerator "g" { id := 1, help := none }]).Apply
          { genMaps := [], ruleMaps := [] }).1
        ((build "t" [.withDescription "d", .withGenerator "g" { id := 1, help := none }]).Apply
          { genMaps := [], ruleMaps := [] }).2
      = pureEval "t" [.withDescription "d", .withGenerator "g" { id := 1, help := none }] :=
  (C5_builder_purity "t" [.withDescription "d", .withGenerator "g" { id := 1, help := none }]
    (by decide) { genMaps := [], ruleMaps := [] }).2.2.1

end Genutils
